import Mathlib

/-!
Verification of the GPTStoryworld narrative execution engine and its
JavaScript tooling.  The engine itself (expression evaluator, state store,
effect applier, selection state machine, rehearsal sampler) is documented in
src/claude-skills/SKILL_storyworlds_v4.md and the design specification; the
executable engine (Rehearsal.gd) lives outside this repository, so those
components are modelled from the specification.  meta-calc.js and
controller.js are embedded directly from their JavaScript sources.
-/

namespace Storyworld

/-- Minimum of two rationals, written out so that the kernel can evaluate it. -/
def qmin (a b : Rat) : Rat := if a ≤ b then a else b

/-- Maximum of two rationals, written out so that the kernel can evaluate it. -/
def qmax (a b : Rat) : Rat := if a ≤ b then b else a

/-- Modelled from the spec: values are bounded reals in [-1, 1]; effects are
clamped there.  clamp(x, -1, 1). -/
def clamp (x : Rat) : Rat := qmax (-1) (qmin 1 x)

/-- Modelled from the spec (and SKILL_storyworlds_v4.md line 139): the Nudge
operator, bounded addition: Nudge(current, delta) = clamp(current + delta, -1, 1).
The executable engine (Rehearsal.gd) is not part of this repository. -/
def nudge (current delta : Rat) : Rat := clamp (current + delta)

/-- Modelled from the spec: the documented but unimplemented alternative
asymptotic Nudge of src/storyworld-env/README.md, which moves the value toward
+1 or -1 scaled by the remaining distance to the bound (a positive nudge value
pushes toward +1, negative toward -1). -/
def asymptoticNudge (current delta : Rat) : Rat :=
  if 0 ≤ delta then current + delta * (1 - current)
  else current + delta * (current + 1)

/-- Modelled from the spec: a State Store key, the composite
(character, keyring) pair addressing a bounded-number property. -/
structure PropKey where
  character : String
  keyring : List String
deriving DecidableEq

/-- Modelled from the spec: the per-playthrough State Store, a mapping from
composite keys to bounded numeric values; unset keys default to 0. -/
abbrev StateStore := List (PropKey × Rat)

/-- Reading a property: the most recent binding, defaulting to 0. -/
def StateStore.get (st : StateStore) (k : PropKey) : Rat :=
  match List.find? (fun p => decide (p.1 = k)) st with
  | some p => p.2
  | none => 0

/-- Modelled from the spec: all writes go through set(key, value); the store
itself does not clamp (clamping is the responsibility of the Effect Applier). -/
def StateStore.set (st : StateStore) (k : PropKey) (v : Rat) : StateStore :=
  (k, v) :: List.filter (fun p => !(decide (p.1 = k))) st

/-- Modelled from the spec: comparator subtypes of the Arithmetic Comparator
operator. -/
inductive CompOp where
  | ge | le | gt | lt | eq | ne
deriving DecidableEq

def applyComp : CompOp → Rat → Rat → Bool
  | .ge, a, b => decide (b ≤ a)
  | .le, a, b => decide (a ≤ b)
  | .gt, a, b => decide (b < a)
  | .lt, a, b => decide (a < b)
  | .eq, a, b => decide (a = b)
  | .ne, a, b => decide (a ≠ b)

/-- Modelled from the spec: numeric script expressions — Bounded Number
Constant, Bounded Number Pointer (character, keyring, coefficient), Addition,
Multiplication, Absolute Value, and Nudge. -/
inductive NExpr where
  | num (v : Rat)
  | ref (character : String) (keyring : List String) (coefficient : Rat)
  | add (operands : List NExpr)
  | mul (operands : List NExpr)
  | abse (operand : NExpr)
  | nudgeE (current delta : NExpr)

/-- Modelled from the spec: boolean script expressions — true/false literal,
Arithmetic Comparator over numeric operands, And, Or. -/
inductive BExpr where
  | lit (b : Bool)
  | comp (op : CompOp) (lhs rhs : NExpr)
  | and (operands : List BExpr)
  | or (operands : List BExpr)

mutual

/-- Modelled from the spec: the pure, total numeric evaluator; arithmetic is
on raw (un-clamped) intermediate values, only Nudge clamps. -/
def evalN (st : StateStore) : NExpr → Rat
  | .num v => v
  | .ref ch kr c => c * StateStore.get st ⟨ch, kr⟩
  | .add os => sumEval st os
  | .mul os => prodEval st os
  | .abse e => |evalN st e|
  | .nudgeE c d => nudge (evalN st c) (evalN st d)

def sumEval (st : StateStore) : List NExpr → Rat
  | [] => 0
  | e :: es => evalN st e + sumEval st es

def prodEval (st : StateStore) : List NExpr → Rat
  | [] => 1
  | e :: es => evalN st e * prodEval st es

end

mutual

/-- Modelled from the spec: the pure, total boolean evaluator; And over an
empty operand list is true, Or over an empty operand list is false. -/
def evalB (st : StateStore) : BExpr → Bool
  | .lit b => b
  | .comp op l r => applyComp op (evalN st l) (evalN st r)
  | .and os => allEval st os
  | .or os => anyEval st os

def allEval (st : StateStore) : List BExpr → Bool
  | [] => true
  | e :: es => evalB st e && allEval st es

def anyEval (st : StateStore) : List BExpr → Bool
  | [] => false
  | e :: es => evalB st e || anyEval st es

end

/-- Modelled from the spec: an Effect targets a (character, keyring) composite
property and overwrites it with the evaluated result of a value-producing
expression (the JSON fields Set and to). -/
structure Effect where
  character : String
  keyring : List String
  valueExpr : NExpr

/-- Modelled from the spec: applying one effect — evaluate the expression in
the current state and write the result through the store. -/
def applyEffect (st : StateStore) (e : Effect) : StateStore :=
  StateStore.set st ⟨e.character, e.keyring⟩ (evalN st e.valueExpr)

/-- Modelled from the spec: effects apply in list order; later effects observe
the results of earlier ones (sequential semantics, section 4.3). -/
def applyEffects (st : StateStore) (effects : List Effect) : StateStore :=
  effects.foldl applyEffect st

/-- An effect whose value expression is rooted in the Nudge operator. -/
def IsNudgeEffect (e : Effect) : Prop :=
  ∃ c d, e.valueExpr = NExpr.nudgeE c d

/-- Every binding physically stored in the store lies in [-1, 1]. -/
def InRange (st : StateStore) : Prop :=
  ∀ p ∈ st, -1 ≤ p.2 ∧ p.2 ≤ 1

theorem clamp_bounds (x : Rat) : -1 ≤ clamp x ∧ clamp x ≤ 1 := by
  unfold clamp qmax qmin
  split_ifs with h1 h2 h2 <;> constructor <;> linarith

theorem nudge_bounds (c d : Rat) : -1 ≤ nudge c d ∧ nudge c d ≤ 1 :=
  clamp_bounds (c + d)

theorem set_inRange (st : StateStore) (k : PropKey) (v : Rat)
    (hst : InRange st) (hv : -1 ≤ v ∧ v ≤ 1) :
    InRange (StateStore.set st k v) := by
  unfold InRange at hst ⊢
  intro p hp
  unfold StateStore.set at hp
  rw [List.mem_cons] at hp
  rcases hp with hp | hp
  · rw [hp]; exact hv
  · exact hst p (List.mem_of_mem_filter hp)

theorem applyEffect_nudge_inRange (st : StateStore) (e : Effect)
    (hst : InRange st) (he : IsNudgeEffect e) :
    InRange (applyEffect st e) := by
  rcases he with ⟨c, d, hcd⟩
  unfold applyEffect
  apply set_inRange _ _ _ hst
  rw [hcd]
  rw [evalN]
  exact nudge_bounds _ _

theorem applyEffects_nudge_inRange (effects : List Effect) (st : StateStore)
    (hst : InRange st) (he : ∀ e ∈ effects, IsNudgeEffect e) :
    InRange (applyEffects st effects) := by
  induction effects generalizing st with
  | nil => exact hst
  | cons e es ih =>
      have h1 : InRange (applyEffect st e) :=
        applyEffect_nudge_inRange st e hst (he e (List.mem_cons_self e es))
      exact ih (applyEffect st e) h1 (fun e2 h2 => he e2 (List.mem_cons_of_mem e h2))

/-- Demonstration key: the Trust property of the player character. -/
def trustKey : PropKey := ⟨"char_player", ["Trust"]⟩

/-- Demonstration effect: Nudge the Trust property by an adversarially large
delta of 5. -/
def nudgeTrust5 : Effect :=
  ⟨"char_player", ["Trust"], .nudgeE (.ref "char_player" ["Trust"] 1) (.num 5)⟩

theorem inRange_nil : InRange ([] : StateStore) := by
  intro p hp
  exact absurd hp (List.not_mem_nil p)

theorem nudgeTrust5_isNudge : ∀ e ∈ [nudgeTrust5, nudgeTrust5], IsNudgeEffect e := by
  intro e he
  simp only [List.mem_cons, List.not_mem_nil, or_false] at he
  rcases he with he | he <;> exact he ▸ ⟨_, _, rfl⟩

/-- C1: for every character property stored as a bounded number, after any
finite sequence of Nudge effects applied through the Effect Applier the stored
value lies in [-1, 1]; in particular, from 0, Nudge with delta = 5 applied
twice yields exactly 1, with no residual beyond the bound. -/
theorem nudge_clamp_roundtrip_invariant :
    (∀ (effects : List Effect) (st : StateStore), InRange st →
      (∀ e ∈ effects, IsNudgeEffect e) → InRange (applyEffects st effects))
    ∧ StateStore.get (applyEffects [] [nudgeTrust5, nudgeTrust5]) trustKey = 1 := by
  constructor
  · exact fun effects st h1 h2 => applyEffects_nudge_inRange effects st h1 h2
  · show StateStore.get (applyEffect (applyEffect [] nudgeTrust5) nudgeTrust5) trustKey = 1
    simp only [applyEffect, nudgeTrust5, evalN, StateStore.get, StateStore.set,
      sumEval, prodEval, trustKey, List.find?, List.filter, nudge, clamp, qmax, qmin]
    norm_num

/-- C1 witness: the invariant instantiated at the concrete two-step
adversarial Nudge sequence starting from the empty store. -/
theorem nudge_clamp_roundtrip_invariant_witness :
    InRange (applyEffects [] [nudgeTrust5, nudgeTrust5]) :=
  nudge_clamp_roundtrip_invariant.1 [nudgeTrust5, nudgeTrust5] []
    inRange_nil nudgeTrust5_isNudge

/-- C2: the Nudge operator is the simple additive clamp
clamp(current + delta, -1, 1) for every current value and delta, and it is not
merged with the documented asymptotic-approach variant: the two semantics
disagree (already at current 0, delta 2). -/
theorem nudge_additive_clamp_not_merged :
    (∀ current delta : Rat, nudge current delta = clamp (current + delta))
    ∧ nudge 0 2 = 1 ∧ asymptoticNudge 0 2 = 2
    ∧ nudge 0 2 ≠ asymptoticNudge 0 2 := by
  refine ⟨fun current delta => rfl, ?_, ?_, ?_⟩
  · norm_num [nudge, clamp, qmax, qmin]
  · norm_num [asymptoticNudge]
  · norm_num [nudge, clamp, qmax, qmin, asymptoticNudge]

/-- C2 witness: the additive-clamp equation instantiated at an in-range
current value and an adversarial delta. -/
theorem nudge_additive_clamp_not_merged_witness :
    nudge 0 5 = clamp (0 + 5) :=
  nudge_additive_clamp_not_merged.1 0 5

theorem qmax_left_le (a b : Rat) : a ≤ qmax a b := by
  unfold qmax
  split_ifs with h
  · exact h
  · exact le_refl a

theorem qmax_right_le (a b : Rat) : b ≤ qmax a b := by
  unfold qmax
  split_ifs with h
  · exact le_refl b
  · linarith

theorem qmax_cases (a b : Rat) : qmax a b = a ∨ qmax a b = b := by
  unfold qmax
  split_ifs <;> simp

/-- Fold of qmax over scores of list elements, seeded with an initial score;
used to compute the numerically highest desirability. -/
def foldMax (f : α → Rat) (xs : List α) (a : Rat) : Rat :=
  xs.foldl (fun m y => qmax m (f y)) a

theorem foldMax_init_le (f : α → Rat) :
    ∀ (xs : List α) (a : Rat), a ≤ foldMax f xs a := by
  intro xs
  induction xs with
  | nil => intro a; exact le_refl a
  | cons x xs ih =>
      intro a
      exact le_trans (qmax_left_le a (f x)) (ih (qmax a (f x)))

theorem foldMax_mem_le (f : α → Rat) :
    ∀ (xs : List α) (a : Rat) (y : α), y ∈ xs → f y ≤ foldMax f xs a := by
  intro xs
  induction xs with
  | nil => intro a y hy; exact absurd hy (List.not_mem_nil y)
  | cons x xs ih =>
      intro a y hy
      rcases List.mem_cons.mp hy with hy | hy
      · subst hy
        exact le_trans (qmax_right_le a (f y)) (foldMax_init_le f xs (qmax a (f y)))
      · exact ih (qmax a (f x)) y hy

theorem foldMax_attained (f : α → Rat) :
    ∀ (xs : List α) (a : Rat), foldMax f xs a = a ∨ ∃ y ∈ xs, foldMax f xs a = f y := by
  intro xs
  induction xs with
  | nil => intro a; exact Or.inl rfl
  | cons x xs ih =>
      intro a
      rcases ih (qmax a (f x)) with h | ⟨y, hy, h⟩
      · rcases qmax_cases a (f x) with h2 | h2
        · exact Or.inl (by rw [foldMax] at h ⊢; simpa [h2] using h)
        · refine Or.inr ⟨x, List.mem_cons_self x xs, ?_⟩
          rw [foldMax] at h ⊢
          simpa [h2] using h
      · exact Or.inr ⟨y, List.mem_cons_of_mem x hy, h⟩

/-- Modelled from the spec: a Reaction — identifier, desirability expression,
consequence reference (a concrete next-encounter id or the defer sentinel,
encoded as none), and an ordered list of effects. -/
structure Reaction where
  id : String
  desirability : NExpr
  consequence : Option String
  effects : List Effect

/-- Modelled from the spec: an Option of an encounter — identifier, visibility
and performability expressions, and its reactions. -/
structure StoryOption where
  id : String
  visibility : BExpr
  performability : BExpr
  reactions : List Reaction

/-- Modelled from the spec: an Encounter — identifier, acceptability and
desirability expressions, an ending flag, and its options.  The fired flag is
runtime state and is tracked separately per playthrough. -/
structure Encounter where
  id : String
  acceptability : BExpr
  desirability : NExpr
  isEnding : Bool
  options : List StoryOption

/-- Modelled from the spec: a Spool — identifier, active flag, and member
encounter ids. -/
structure Spool where
  id : String
  active : Bool
  members : List String

/-- Modelled from the spec: the immutable storyworld document graph. -/
structure Graph where
  encounters : List Encounter
  spools : List Spool

/-- Desirability score of a reaction in the current state. -/
def reactionDes (st : StateStore) (r : Reaction) : Rat := evalN st r.desirability

/-- Modelled from the spec: select_reaction(option) — deterministic; pick the
reaction with the numerically highest desirability among the reactions of the
chosen option, ties broken by declaration order (first wins). -/
def select_reaction (st : StateStore) (o : StoryOption) : Option Reaction :=
  match o.reactions with
  | [] => none
  | r :: rs =>
      List.find? (fun r2 => decide (reactionDes st r2 = foldMax (reactionDes st) rs (reactionDes st r)))
        (r :: rs)

/-- Modelled from the spec: find_open_options(encounter) — the subsequence of
the options of the encounter whose visibility AND performability expressions both
evaluate true, in authored order. -/
def find_open_options (st : StateStore) (e : Encounter) : List StoryOption :=
  e.options.filter (fun o => evalB st o.visibility && evalB st o.performability)

/-- Modelled from the spec: whether an encounter id belongs to some
currently-active spool. -/
def inActiveSpool (g : Graph) (eid : String) : Bool :=
  g.spools.any (fun sp => sp.active && sp.members.contains eid)

/-- Modelled from the spec: the encounters considered by the fallback
selection path — members of currently-active spools that have not yet fired in
this run and whose acceptability expression evaluates true. -/
def eligibleEncounters (g : Graph) (st : StateStore) (fired : List String) : List Encounter :=
  g.encounters.filter
    (fun e => inActiveSpool g e.id && !(fired.contains e.id) && evalB st e.acceptability)

/-- Desirability score of an encounter in the current state. -/
def encounterDes (st : StateStore) (e : Encounter) : Rat := evalN st e.desirability

/-- The eligible encounters tied at the maximal desirability m. -/
def tiedAtMax (st : StateStore) (l : List Encounter) (m : Rat) : List Encounter :=
  l.filter (fun e => decide (encounterDes st e = m))

/-- Modelled from the spec: select_encounter — if the previous reaction
carried a concrete consequence id, select that encounter directly, bypassing
the spool scan; otherwise scan the eligible encounters of active spools,
keep those tied at the numerically highest desirability, and pick among the
tied set with the injected random draw; with no eligible encounter the run
dead-ends (none). -/
def select_encounter (g : Graph) (st : StateStore) (fired : List String)
    (prevCons : Option String) (rand : Nat) : Option Encounter :=
  match prevCons with
  | some cid => g.encounters.find? (fun e => decide (e.id = cid))
  | none =>
      match eligibleEncounters g st fired with
      | [] => none
      | e :: es =>
          let tied := tiedAtMax st (e :: es) (foldMax (encounterDes st) es (encounterDes st e))
          tied.get? (rand % tied.length)

/-- Demonstration reaction with desirability 0 and a concrete consequence. -/
def reactionA : Reaction := ⟨"reaction_a", .num 0, some "page_end_a", []⟩

/-- Second demonstration reaction, tied with the first at desirability 0. -/
def reactionB : Reaction := ⟨"reaction_b", .num 0, some "page_end_b", []⟩

/-- Demonstration option whose two reactions are tied at the maximum. -/
def tieOption : StoryOption := ⟨"opt_1", .lit true, .lit true, [reactionA, reactionB]⟩

/-- C4: select_reaction is a deterministic function of the option and the
state: for every option with at least one reaction it returns a reaction of
that option attaining the numerically highest desirability, every reaction
declared before it has strictly lower desirability (first wins on ties), and
two calls with the same option and state return the same reaction id. -/
theorem select_reaction_deterministic_highest_first :
    ∀ (st : StateStore) (o : StoryOption), o.reactions ≠ [] →
      ∃ r, select_reaction st o = some r ∧ r ∈ o.reactions ∧
        (∀ r2 ∈ o.reactions, reactionDes st r2 ≤ reactionDes st r) ∧
        (∃ l1 l2, o.reactions = l1 ++ r :: l2 ∧
          ∀ r2 ∈ l1, reactionDes st r2 < reactionDes st r) ∧
        (∀ r2, select_reaction st o = some r2 → r2.id = r.id) := by
  intro st o hne
  obtain ⟨r0, rs, hor⟩ : ∃ r0 rs, o.reactions = r0 :: rs := by
    cases h : o.reactions with
    | nil => exact absurd h hne
    | cons a l => exact ⟨a, l, rfl⟩
  set M := foldMax (reactionDes st) rs (reactionDes st r0) with hM
  set p := fun r2 => decide (reactionDes st r2 = M) with hp
  have hsel : select_reaction st o = List.find? p (r0 :: rs) := by
    simp only [select_reaction, hor]
  have hmax : ∀ r2 ∈ r0 :: rs, reactionDes st r2 ≤ M := by
    intro r2 h2
    rcases List.mem_cons.mp h2 with h2 | h2
    · exact h2 ▸ foldMax_init_le (reactionDes st) rs (reactionDes st r0)
    · exact foldMax_mem_le (reactionDes st) rs (reactionDes st r0) r2 h2
  have hatt : ∃ x ∈ r0 :: rs, p x = true := by
    rcases foldMax_attained (reactionDes st) rs (reactionDes st r0) with h | ⟨y, hy, h⟩
    · exact ⟨r0, List.mem_cons_self r0 rs, by simp [hp, hM, h]⟩
    · exact ⟨y, List.mem_cons_of_mem r0 hy, by simp [hp, hM, h]⟩
  obtain ⟨x, hx, hpx⟩ := hatt
  cases hfind : List.find? p (r0 :: rs) with
  | none => exact absurd hpx (List.find?_eq_none.mp hfind x hx)
  | some r =>
      have hdecomp := List.find?_eq_some.mp hfind
      obtain ⟨hpr, as, bs, heq, hall⟩ := hdecomp
      have hrM : reactionDes st r = M := by simpa [hp] using hpr
      refine ⟨r, by rw [hsel, hfind], ?_, ?_, ?_, ?_⟩
      · rw [hor]; exact List.mem_of_find?_eq_some hfind
      · intro r2 h2
        rw [hor] at h2
        exact hrM ▸ hmax r2 h2
      · refine ⟨as, bs, by rw [hor, heq], ?_⟩
        intro r2 h2
        have hne2 : reactionDes st r2 ≠ M := by
          have := hall r2 h2
          simpa [hp] using this
        have hle : reactionDes st r2 ≤ M := by
          apply hmax
          rw [heq]
          exact List.mem_append_left _ h2
        rw [hrM]
        exact lt_of_le_of_ne hle hne2
      · intro r2 h2
        rw [hsel, hfind] at h2
        injection h2 with h2
        rw [h2]

/-- C4 witness: a concrete option with two reactions tied at desirability 0;
the first declared reaction is selected. -/
theorem select_reaction_deterministic_highest_first_witness :
    ∃ r, select_reaction [] tieOption = some r ∧ r ∈ tieOption.reactions ∧
      (∀ r2 ∈ tieOption.reactions, reactionDes [] r2 ≤ reactionDes [] r) ∧
      (∃ l1 l2, tieOption.reactions = l1 ++ r :: l2 ∧
        ∀ r2 ∈ l1, reactionDes [] r2 < reactionDes [] r) ∧
      (∀ r2, select_reaction [] tieOption = some r2 → r2.id = r.id) :=
  select_reaction_deterministic_highest_first [] tieOption (by simp [tieOption])

/-- Demonstration option that is visible but not performable. -/
def visOnlyOption : StoryOption := ⟨"opt_hidden", .lit true, .lit false, [reactionA]⟩

/-- Demonstration option that is both visible and performable. -/
def openOption : StoryOption := ⟨"opt_open", .lit true, .lit true, [reactionA]⟩

/-- Demonstration encounter holding the two demonstration options. -/
def gateEncounter : Encounter :=
  ⟨"page_1", .lit true, .num 0, false, [openOption, visOnlyOption]⟩

/-- C5: find_open_options returns exactly the subsequence of the options of the
encounter for which visibility AND performability both evaluate true, in
authored order; an option with visibility true but performability false is
not open. -/
theorem find_open_options_visible_and_performable :
    ∀ (st : StateStore) (e : Encounter),
      (find_open_options st e).Sublist e.options ∧
      (∀ o, o ∈ find_open_options st e ↔
        o ∈ e.options ∧ evalB st o.visibility = true ∧ evalB st o.performability = true) ∧
      (∀ o ∈ e.options, evalB st o.visibility = true → evalB st o.performability = false →
        o ∉ find_open_options st e) := by
  intro st e
  refine ⟨List.filter_sublist _, ?_, ?_⟩
  · intro o
    simp [find_open_options, List.mem_filter, Bool.and_eq_true, and_assoc]
  · intro o _ hv hp hmem
    rw [find_open_options, List.mem_filter, hv, hp] at hmem
    simp at hmem

/-- C5 witness: in the demonstration encounter, the visible-but-unperformable
option is not open. -/
theorem find_open_options_visible_and_performable_witness :
    visOnlyOption ∉ find_open_options [] gateEncounter :=
  (find_open_options_visible_and_performable [] gateEncounter).2.2 visOnlyOption
    (by simp [gateEncounter]) rfl rfl

/-- C3: select_encounter follows a concrete consequence id directly (without
scanning spools, state, fired flags or randomness); otherwise it considers
exactly the unfired, acceptable encounters of currently-active spools, returns
only encounters attaining the numerically highest desirability, reaches every
encounter of the tied set by some draw of the injected generator (index = draw
mod tie count), and dead-ends (none) when no encounter is eligible. -/
theorem select_encounter_consequence_spool_max_tie :
    ∀ (g : Graph) (st : StateStore) (fired : List String) (rand : Nat),
      (∀ (cid : String) (spools2 : List Spool) (st2 : StateStore)
          (fired2 : List String) (rand2 : Nat),
        select_encounter g st fired (some cid) rand
          = g.encounters.find? (fun e => decide (e.id = cid)) ∧
        select_encounter ⟨g.encounters, spools2⟩ st2 fired2 (some cid) rand2
          = select_encounter g st fired (some cid) rand) ∧
      (∀ e, e ∈ eligibleEncounters g st fired ↔
        e ∈ g.encounters ∧ inActiveSpool g e.id = true ∧ fired.contains e.id = false ∧
          evalB st e.acceptability = true) ∧
      (eligibleEncounters g st fired = [] → select_encounter g st fired none rand = none) ∧
      (eligibleEncounters g st fired ≠ [] → ∃ e, select_encounter g st fired none rand = some e) ∧
      (∀ e, select_encounter g st fired none rand = some e →
        e ∈ eligibleEncounters g st fired ∧
        ∀ e2 ∈ eligibleEncounters g st fired, encounterDes st e2 ≤ encounterDes st e) ∧
      (∀ e0 es, eligibleEncounters g st fired = e0 :: es →
        ∀ j (hj : j < (tiedAtMax st (e0 :: es)
            (foldMax (encounterDes st) es (encounterDes st e0))).length),
          select_encounter g st fired none j
            = some ((tiedAtMax st (e0 :: es)
                (foldMax (encounterDes st) es (encounterDes st e0))).get ⟨j, hj⟩)) := by
  intro g st fired rand
  refine ⟨?_, ?_, ?_, ?_, ?_, ?_⟩
  · intro cid spools2 st2 fired2 rand2
    constructor
    · simp only [select_encounter]
    · simp only [select_encounter]
  · intro e
    simp [eligibleEncounters, List.mem_filter, Bool.and_eq_true, Bool.not_eq_true',
      and_assoc]
  · intro h
    simp only [select_encounter, h]
  · intro h
    obtain ⟨e0, es, heq⟩ : ∃ e0 es, eligibleEncounters g st fired = e0 :: es := by
      cases hc : eligibleEncounters g st fired with
      | nil => exact absurd hc h
      | cons a l => exact ⟨a, l, rfl⟩
    set M := foldMax (encounterDes st) es (encounterDes st e0) with hM
    have htied : ∃ x ∈ e0 :: es, decide (encounterDes st x = M) = true := by
      rcases foldMax_attained (encounterDes st) es (encounterDes st e0) with h2 | ⟨y, hy, h2⟩
      · exact ⟨e0, List.mem_cons_self e0 es, by simp [hM, h2]⟩
      · exact ⟨y, List.mem_cons_of_mem e0 hy, by simp [hM, h2]⟩
    obtain ⟨x, hx, hpx⟩ := htied
    have hlen : 0 < (tiedAtMax st (e0 :: es) M).length := by
      apply List.length_pos.mpr
      intro hnil
      have : x ∈ tiedAtMax st (e0 :: es) M := List.mem_filter.mpr ⟨hx, hpx⟩
      rw [hnil] at this
      exact absurd this (List.not_mem_nil x)
    have hmod : rand % (tiedAtMax st (e0 :: es) M).length
        < (tiedAtMax st (e0 :: es) M).length := Nat.mod_lt _ hlen
    refine ⟨(tiedAtMax st (e0 :: es) M).get ⟨_, hmod⟩, ?_⟩
    simp only [select_encounter, heq]
    exact List.get?_eq_get hmod
  · intro e hsel
    obtain ⟨e0, es, heq⟩ : ∃ e0 es, eligibleEncounters g st fired = e0 :: es := by
      cases hc : eligibleEncounters g st fired with
      | nil => rw [select_encounter, hc] at hsel; cases hsel
      | cons a l => exact ⟨a, l, rfl⟩
    set M := foldMax (encounterDes st) es (encounterDes st e0) with hM
    have hsel2 : (tiedAtMax st (e0 :: es) M).get? (rand % (tiedAtMax st (e0 :: es) M).length)
        = some e := by
      rw [select_encounter, heq] at hsel
      exact hsel
    have hmem : e ∈ tiedAtMax st (e0 :: es) M := List.get?_mem hsel2
    have hmem2 := List.mem_filter.mp hmem
    have heM : encounterDes st e = M := by simpa using hmem2.2
    refine ⟨heq ▸ hmem2.1, ?_⟩
    intro e2 h2
    rw [heq] at h2
    rw [heM]
    rcases List.mem_cons.mp h2 with h2 | h2
    · exact h2 ▸ foldMax_init_le (encounterDes st) es (encounterDes st e0)
    · exact foldMax_mem_le (encounterDes st) es (encounterDes st e0) e2 h2
  · intro e0 es heq j hj
    simp only [select_encounter, heq]
    rw [Nat.mod_eq_of_lt hj]
    exact List.get?_eq_get hj

/-- Demonstration ending encounter A. -/
def endA : Encounter := ⟨"page_end_a", .lit true, .num 0, true, []⟩

/-- Demonstration ending encounter B, tied with A at desirability 0. -/
def endB : Encounter := ⟨"page_end_b", .lit true, .num 0, true, []⟩

/-- Demonstration spool holding the two tied endings; active. -/
def demoSpool : Spool := ⟨"spool_main", true, ["page_end_a", "page_end_b"]⟩

/-- Demonstration graph: a non-spool encounter plus two tied spool members. -/
def demoGraph : Graph := ⟨[gateEncounter, endA, endB], [demoSpool]⟩

/-- C3 witness: on the demonstration graph both endings are tied at the
maximum desirability 0 and the generator draw 1 selects the second member of
the tied set. -/
theorem select_encounter_consequence_spool_max_tie_witness :
    select_encounter demoGraph [] [] none 1
      = some ((tiedAtMax [] [endA, endB]
          (foldMax (encounterDes []) [endB] (encounterDes [] endA))).get ⟨1, by decide⟩) :=
  (select_encounter_consequence_spool_max_tie demoGraph [] [] 1).2.2.2.2.2 endA [endB]
    (by rfl) 1 (by decide)

/-- Modelled from the spec: the internal terminal outcomes of one trajectory —
reaching an ending, a dead end (no eligible encounter), or exhausting the
caller-supplied step budget. -/
inductive Outcome where
  | ended (id : String)
  | deadEnd
  | stepBudgetExceeded
deriving DecidableEq

/-- Modelled from the spec: what the aggregate report records for a
trajectory; StepBudgetExceeded is treated identically to DeadEnd for
reporting purposes. -/
inductive ReportedOutcome where
  | endedAt (id : String)
  | failed
deriving DecidableEq

/-- Modelled from the spec: the reporting view of an internal outcome. -/
def reportOutcome : Outcome → ReportedOutcome
  | .ended i => .endedAt i
  | .deadEnd => .failed
  | .stepBudgetExceeded => .failed

/-- Modelled from the spec: the seeded pseudo-random source (a linear
congruential step); all randomness flows from it. -/
def lcg (n : Nat) : Nat := (1103515245 * n + 12345) % 2147483648

/-- Modelled from the spec: the per-trajectory mutable data — the fresh State
Store, the fired flags, the pending consequence and the generator state. -/
structure TrajState where
  store : StateStore
  fired : List String
  prevCons : Option String
  rng : Nat

/-- One step of the trajectory loop either halts with an outcome or continues
in a successor trajectory state. -/
inductive StepRes where
  | halt (o : Outcome)
  | step (ts2 : TrajState)

/-- Modelled from the spec: one iteration of the Selection State Machine —
select the next encounter (dead end if none), halt on an ending or an
encounter with no open options, otherwise draw an open option uniformly via
the generator, pick its reaction deterministically, apply its effects
sequentially, and continue with the consequence of the chosen reaction. -/
def trajStep (g : Graph) (ts : TrajState) : StepRes :=
  match select_encounter g ts.store ts.fired ts.prevCons ts.rng with
  | none => .halt .deadEnd
  | some e =>
      if e.isEnding then .halt (.ended e.id)
      else
        match find_open_options ts.store e with
        | [] => .halt (.ended e.id)
        | o :: os =>
            let r1 := lcg ts.rng
            let chosen := (o :: os).getD (r1 % (o :: os).length) o
            match select_reaction ts.store chosen with
            | none => .halt .deadEnd
            | some r =>
                .step ⟨applyEffects ts.store r.effects, e.id :: ts.fired,
                  r.consequence, lcg r1⟩

/-- Modelled from the spec: the trajectory loop, fuelled by the step budget of the caller; returns the outcome, the number of steps consumed and the final
store. -/
def runTraj (g : Graph) : Nat → TrajState → Outcome × Nat × StateStore
  | 0, ts => (.stepBudgetExceeded, 0, ts.store)
  | b + 1, ts =>
      match trajStep g ts with
      | .halt o => (o, 1, ts.store)
      | .step ts2 =>
          let res := runTraj g b ts2
          (res.1, res.2.1 + 1, res.2.2)

/-- C6: every trajectory halts within the configured step budget, on every
document (cyclic ones included); a zero remaining budget yields the
StepBudgetExceeded outcome, which is reported identically to a dead end while
remaining internally distinct from it. -/
theorem trajectory_terminates_within_budget :
    (∀ (g : Graph) (budget : Nat) (ts : TrajState), (runTraj g budget ts).2.1 ≤ budget)
    ∧ (∀ (g : Graph) (ts : TrajState), (runTraj g 0 ts).1 = .stepBudgetExceeded)
    ∧ reportOutcome .deadEnd = reportOutcome .stepBudgetExceeded
    ∧ Outcome.deadEnd ≠ Outcome.stepBudgetExceeded := by
  refine ⟨?_, fun g ts => rfl, rfl, by simp⟩
  intro g budget
  induction budget with
  | zero => intro ts; exact Nat.le_refl 0
  | succ b ih =>
      intro ts
      rw [runTraj]
      cases trajStep g ts with
      | halt o => exact Nat.succ_le_succ (Nat.zero_le b)
      | step ts2 => exact Nat.succ_le_succ (ih ts2)

/-- C6 witness: the budget bound instantiated on the demonstration graph with
budget 3 from a fresh trajectory. -/
theorem trajectory_terminates_within_budget_witness :
    (runTraj demoGraph 3 ⟨[], [], none, 0⟩).2.1 ≤ 3 :=
  trajectory_terminates_within_budget.1 demoGraph 3 ⟨[], [], none, 0⟩

/-- Modelled from the spec: a fresh trajectory start — empty State Store, no
fired encounters, spool-based first selection, generator seeded per
trajectory. -/
def initTraj (seed : Nat) : TrajState := ⟨[], [], none, seed⟩

/-- Modelled from the spec: the aggregate report of a rehearsal run — the
reported outcome of every trajectory, the dead-end-or-budget count, and the
per-ending frequency tally. -/
structure Report where
  outcomes : List ReportedOutcome
  failedCount : Nat
  endingTally : List (String × Nat)

/-- Increment the tally entry of an ending id. -/
def tallyAdd : List (String × Nat) → String → List (String × Nat)
  | [], k => [(k, 1)]
  | (k2, n) :: rest, k =>
      if k2 = k then (k2, n + 1) :: rest else (k2, n) :: tallyAdd rest k

/-- Modelled from the spec: the Rehearsal Sampler — N independent
trajectories, each from a fresh initial State Store, the generator of
trajectory i seeded with base seed + i, aggregated into the report. -/
def rehearse (g : Graph) (n seed budget : Nat) : Report :=
  let outs := (List.range n).map
    (fun i => reportOutcome (runTraj g budget (initTraj (seed + i))).1)
  ⟨outs,
   outs.countP (fun o => decide (o = .failed)),
   outs.foldl (fun m o => match o with | .endedAt i => tallyAdd m i | .failed => m) []⟩

/-- Byte encoding of one reported outcome. -/
def outcomeBytes : ReportedOutcome → List Nat
  | .endedAt s => 1 :: s.toList.map Char.toNat
  | .failed => [0]

/-- Byte serialization of an aggregate report. -/
def reportBytes (r : Report) : List Nat :=
  r.outcomes.foldr (fun o acc => outcomeBytes o ++ acc)
    (r.failedCount ::
      r.endingTally.foldr (fun p acc => p.1.toList.map Char.toNat ++ p.2 :: acc) [])

/-- C7: the Rehearsal Sampler is deterministic as a two-run property — two
runs over the same document with the same seed, step budget and trajectory
count produce byte-identical aggregate reports, and the reported outcome of the i-th
trajectory is a function of the document, the budget and seed + i
alone. -/
theorem rehearsal_two_runs_byte_identical :
    ∀ (g : Graph) (n seed budget : Nat) (r1 r2 : Report),
      r1 = rehearse g n seed budget → r2 = rehearse g n seed budget →
      reportBytes r1 = reportBytes r2 ∧
      ∀ i, i < n → r1.outcomes.get? i
          = some (reportOutcome (runTraj g budget (initTraj (seed + i))).1) := by
  intro g n seed budget r1 r2 h1 h2
  subst h1
  subst h2
  refine ⟨rfl, ?_⟩
  intro i hi
  simp [rehearse, List.get?_eq_getElem?, List.getElem?_map, List.getElem?_range hi]

/-- C7 witness: two identically configured rehearsal runs over the
demonstration graph, byte-compared, plus the seed decomposition of the first
trajectory. -/
theorem rehearsal_two_runs_byte_identical_witness :
    reportBytes (rehearse demoGraph 2 7 4) = reportBytes (rehearse demoGraph 2 7 4)
    ∧ (rehearse demoGraph 2 7 4).outcomes.get? 0
        = some (reportOutcome (runTraj demoGraph 4 (initTraj (7 + 0))).1) := by
  have h := rehearsal_two_runs_byte_identical demoGraph 2 7 4
    (rehearse demoGraph 2 7 4) (rehearse demoGraph 2 7 4) rfl rfl
  exact ⟨h.1, h.2 0 (by decide)⟩

/-- C8: the expression evaluator satisfies the empty-operand identities:
And over an empty operand list is true and Or over an empty operand list is
false, in every state. -/
theorem empty_operand_identities :
    ∀ st : StateStore, evalB st (.and []) = true ∧ evalB st (.or []) = false :=
  fun _ => ⟨rfl, rfl⟩

/-- C8 witness: the empty-operand identities at the empty state. -/
theorem empty_operand_identities_witness :
    evalB [] (.and []) = true ∧ evalB [] (.or []) = false :=
  empty_operand_identities []

end Storyworld

namespace MetaCalc

/-! Embedding of src/meta-calc.js: calcMeta reads raw_storyworld.json, walks
encounters / options / reactions / after_effects, and writes meta.json.
A JavaScript field that may be absent (defaulted in the source with the
or-operator to an empty array or to the string unknown) is modelled as an
Option. -/

/-- One entry of a after_effects array entry of a reaction; effect_type may be
absent. -/
structure JEffect where
  effect_type : Option String

/-- One entry of an options array entry: its reactions; after_effects may be absent. -/
structure JReaction where
  after_effects : Option (List JEffect)

/-- One entry of an encounters array entry: its options; reactions may be absent. -/
structure JOption where
  reactions : Option (List JReaction)

/-- One entry of the top-level encounters array entry; options may be absent. -/
structure JEncounter where
  options : Option (List JOption)

/-- The storyworld_model object of the document. -/
structure JModel where
  characters : Option (List String)
  dominant_properties : Option (List String)

/-- The raw_storyworld.json document as read by calcMeta. -/
structure JDoc where
  encounters : Option (List JEncounter)
  storyworld_model : JModel

/-- enc.options with the JavaScript default of []. -/
def encOptions (e : JEncounter) : List JOption := e.options.getD []

/-- opt.reactions with the JavaScript default of []. -/
def optReactions (o : JOption) : List JReaction := o.reactions.getD []

/-- r.after_effects with the JavaScript default of []. -/
def reactEffects (r : JReaction) : List JEffect := r.after_effects.getD []

/-- eff.effect_type with the JavaScript default of the string unknown. -/
def effType (eff : JEffect) : String := eff.effect_type.getD "unknown"

/-- The running totalOptions accumulator: options summed over encounters. -/
def totalOptions (encs : List JEncounter) : Nat :=
  (encs.map (fun e => (encOptions e).length)).sum

/-- The running totalReactions accumulator: reactions summed over all
options of all encounters. -/
def totalReactions (encs : List JEncounter) : Nat :=
  (encs.map (fun e => ((encOptions e).map (fun o => (optReactions o).length)).sum)).sum

/-- The running totalEffects accumulator: after_effects summed over all
reactions. -/
def totalEffects (encs : List JEncounter) : Nat :=
  (encs.map (fun e =>
    ((encOptions e).map (fun o =>
      ((optReactions o).map (fun r => (reactEffects r).length)).sum)).sum)).sum

/-- validOpts of one encounter: its options having at least one reaction. -/
def validOpts (e : JEncounter) : Nat :=
  (encOptions e).countP (fun o => decide (1 ≤ (optReactions o).length))

/-- The encountersWith2OptsAndReacts accumulator: encounters with at least 2
options of which at least 2 have reactions. -/
def encountersWith2 (encs : List JEncounter) : Nat :=
  encs.countP (fun e => decide (2 ≤ (encOptions e).length) && decide (2 ≤ validOpts e))

/-- The effectTypes tally object keyed by effect_type. -/
def effectTypes (encs : List JEncounter) : List (String × Nat) :=
  (encs.foldl (fun acc e =>
    (encOptions e).foldl (fun acc2 o =>
      (optReactions o).foldl (fun acc3 r =>
        (reactEffects r).foldl (fun acc4 eff => Storyworld.tallyAdd acc4 (effType eff)) acc3)
        acc2) acc) [])

/-- JavaScript +(x).toFixed(2) on the non-negative ratios calcMeta produces:
decimal rounding to two places, half away from zero. -/
def toFixed2 (q : Rat) : Rat := ((q * 100 + 1 / 2).floor : Rat) / 100

/-- The meta object written to meta.json. -/
structure MetaOut where
  total_encounters : Nat
  total_characters : Nat
  dominant_properties : List String
  total_options : Nat
  total_reactions : Nat
  total_effects : Nat
  effect_types : List (String × Nat)
  encounters_with_2_opts_and_reacts : Nat
  percent_with_2_opts_2_reacts : Rat
  average_options_per_encounter : Rat
  average_reactions_per_option : Rat
  average_effects_per_reaction : Rat

/-- calcMeta of src/meta-calc.js lines 6-53: totals, the effect-type tally,
and the four ratio fields, each ternary-guarded on its denominator
(numEncounters, numEncounters, totalOptions, totalReactions). -/
def calcMeta (d : JDoc) : MetaOut :=
  let encs := d.encounters.getD []
  let numEncounters := encs.length
  let characters := d.storyworld_model.characters.getD []
  let dominantProps := d.storyworld_model.dominant_properties.getD []
  { total_encounters := numEncounters
    total_characters := characters.length
    dominant_properties := dominantProps
    total_options := totalOptions encs
    total_reactions := totalReactions encs
    total_effects := totalEffects encs
    effect_types := effectTypes encs
    encounters_with_2_opts_and_reacts := encountersWith2 encs
    percent_with_2_opts_2_reacts :=
      if numEncounters ≠ 0 then toFixed2 (100 * (encountersWith2 encs : Rat) / numEncounters)
      else 0
    average_options_per_encounter :=
      if numEncounters ≠ 0 then toFixed2 ((totalOptions encs : Rat) / numEncounters)
      else 0
    average_reactions_per_option :=
      if totalOptions encs ≠ 0 then toFixed2 ((totalReactions encs : Rat) / totalOptions encs)
      else 0
    average_effects_per_reaction :=
      if totalReactions encs ≠ 0 then toFixed2 ((totalEffects encs : Rat) / totalReactions encs)
      else 0 }

/-- C9: the derived ratio fields written by calcMeta are well-defined
rationals that equal 0 whenever their respective denominator — number of
encounters, total options, total reactions — is zero; every division is
guarded by the matching ternary. -/
theorem calcMeta_guarded_zero_denominators :
    ∀ d : JDoc,
      ((calcMeta d).total_encounters = 0 →
        (calcMeta d).percent_with_2_opts_2_reacts = 0 ∧
        (calcMeta d).average_options_per_encounter = 0) ∧
      ((calcMeta d).total_options = 0 → (calcMeta d).average_reactions_per_option = 0) ∧
      ((calcMeta d).total_reactions = 0 → (calcMeta d).average_effects_per_reaction = 0) := by
  intro d
  simp only [calcMeta]
  refine ⟨fun h => ⟨?_, ?_⟩, fun h => ?_, fun h => ?_⟩ <;> simp [h]

/-- The empty input document: no encounters array, no model lists. -/
def emptyDoc : JDoc := ⟨none, ⟨none, none⟩⟩

/-- C9 witness: on the empty document every denominator is zero and all four
ratio fields are 0. -/
theorem calcMeta_guarded_zero_denominators_witness :
    ((calcMeta emptyDoc).percent_with_2_opts_2_reacts = 0 ∧
      (calcMeta emptyDoc).average_options_per_encounter = 0) ∧
    (calcMeta emptyDoc).average_reactions_per_option = 0 ∧
    (calcMeta emptyDoc).average_effects_per_reaction = 0 :=
  ⟨(calcMeta_guarded_zero_denominators emptyDoc).1 rfl,
   (calcMeta_guarded_zero_denominators emptyDoc).2.1 rfl,
   (calcMeta_guarded_zero_denominators emptyDoc).2.2 rfl⟩

end MetaCalc

namespace Controller

/-! Embedding of src/controller.js: generateEncounter asks the model for an
encounter, extracts the JSON-looking tail of the response text and parses it
(null on parse failure); run() appends the parsed encounter to
raw_storyworld.json, returning early when parsing failed.  JSON.parse is a
platform builtin, modelled as an injected parse function returning none
exactly when JSON.parse would throw. -/

/-- The opening curly brace character. -/
def leftBrace : Char := Char.ofNat 123

/-- The opening square bracket character. -/
def leftBracket : Char := Char.ofNat 91

/-- responseText.slice(responseText.indexOf(c)) when c occurs: drop
everything strictly before the first occurrence of c. -/
def dropUntil (c : Char) : List Char → List Char
  | [] => []
  | x :: xs => if x = c then x :: xs else dropUntil c xs

/-- The jsonStart slice of controller.js line 23-24: from the first curly
brace if any, else from the first square bracket if any, else slice(-1),
which keeps only the last character. -/
def sliceFromJsonStart (text : List Char) : List Char :=
  if text.contains leftBrace then dropUntil leftBrace text
  else if text.contains leftBracket then dropUntil leftBracket text
  else text.drop (text.length - 1)

/-- String.prototype.trim: whitespace stripped from both ends. -/
def trimChars (l : List Char) : List Char :=
  ((l.dropWhile Char.isWhitespace).reverse.dropWhile Char.isWhitespace).reverse

/-- generateEncounter of controller.js lines 11-30, after the completion
text is in hand: slice, trim, parse; null (none) when parsing fails. -/
def generateEncounter (parse : List Char → Option α) (responseText : List Char) : Option α :=
  parse (trimChars (sliceFromJsonStart responseText))

/-- The parsed raw_storyworld.json contents: its encounters array. -/
structure Story (α : Type) where
  encounters : List α

/-- The observable file-system interaction of run(): the stored storyworld
plus how many times raw_storyworld.json was read and written. -/
structure FileState (α : Type) where
  raw : Story α
  readCount : Nat
  writeCount : Nat

/-- run() of controller.js lines 32-41.  Its guard on line 35 is the
JavaScript truthiness test on the value generateEncounter returned
(the negation of newEncounter): it returns early both when
generateEncounter gave null (parse failure) and when the parsed JSON value
itself is falsy (for example the number 0), touching raw_storyworld.json in
neither case.  Only past the guard does it read the file once, push the new
encounter onto its encounters array and write it back once.  Since the
parsed value has abstract type, its JavaScript truthiness is supplied as the
injected function truthy. -/
def run (truthy : α → Bool) (parse : List Char → Option α) (responseText : List Char)
    (fs : FileState α) : FileState α :=
  match generateEncounter parse responseText with
  | none => fs
  | some e =>
      if truthy e then ⟨⟨fs.raw.encounters ++ [e]⟩, fs.readCount + 1, fs.writeCount + 1⟩
      else fs

/-- JavaScript truthiness of a parsed JSON number: falsy exactly at 0. -/
def jsNumTruthy : Nat → Bool := fun n => decide (n ≠ 0)

/-- A concrete stand-in for JSON.parse on the sliced tail: the single
character 0 parses to the falsy number 0, any other single character parses
to the truthy number 1, and everything else throws (none). -/
def demoParse : List Char → Option Nat :=
  fun l =>
    if l = [Char.ofNat 48] then some 0
    else if l.length = 1 then some 1
    else none

/-- An initial file state with an empty encounters array and no traffic. -/
def fs0 : FileState Nat := ⟨⟨[]⟩, 0, 0⟩

/-- C10 counterexample: a model response without braces or brackets whose
last character is 0 slices to the one-character string 0, which JSON.parse
accepts as the falsy number 0 — generateEncounter succeeds, yet run()
returns at the truthiness guard with the storyworld file untouched: nothing
is appended and nothing is written, refuting the claim that every parse
success appends one encounter and writes the file once. -/
theorem run_falsy_zero_counterexample :
    generateEncounter demoParse [Char.ofNat 97, Char.ofNat 32, Char.ofNat 48] = some 0
    ∧ run jsNumTruthy demoParse [Char.ofNat 97, Char.ofNat 32, Char.ofNat 48] fs0 = fs0
    ∧ (run jsNumTruthy demoParse [Char.ofNat 97, Char.ofNat 32, Char.ofNat 48] fs0).writeCount
        ≠ fs0.writeCount + 1
    ∧ (run jsNumTruthy demoParse [Char.ofNat 97, Char.ofNat 32, Char.ofNat 48] fs0).raw.encounters
        ≠ fs0.raw.encounters ++ [0] := by
  refine ⟨rfl, rfl, by decide, by decide⟩

/-- C10 (amended): when the model response cannot be parsed as JSON,
generateEncounter returns null and run() returns without reading or writing
raw_storyworld.json, leaving the storyworld file unchanged; the same early
return leaves the file unchanged when the response parses to a
JavaScript-falsy value, since the guard of run() tests truthiness; only on a
parse success with a truthy value does run() append exactly one encounter to
the encounters array and write the file once. -/
theorem run_truthiness_guard_append_once :
    ∀ (α : Type) (truthy : α → Bool) (parse : List Char → Option α)
      (text : List Char) (fs : FileState α),
      (parse (trimChars (sliceFromJsonStart text)) = none →
        generateEncounter parse text = none ∧ run truthy parse text fs = fs) ∧
      (∀ e, generateEncounter parse text = some e → truthy e = false →
        run truthy parse text fs = fs) ∧
      (∀ e, generateEncounter parse text = some e → truthy e = true →
        (run truthy parse text fs).raw.encounters = fs.raw.encounters ++ [e] ∧
        (run truthy parse text fs).readCount = fs.readCount + 1 ∧
        (run truthy parse text fs).writeCount = fs.writeCount + 1) := by
  intro α truthy parse text fs
  refine ⟨?_, ?_, ?_⟩
  · intro h
    refine ⟨h, ?_⟩
    rw [run, generateEncounter, h]
  · intro e h ht
    simp [run, h, ht]
  · intro e h ht
    simp [run, h, ht]

/-- C10 witness: an unparseable (empty) response leaves the file state
untouched; a response parsing to the falsy 0 also leaves it untouched; a
response parsing to a truthy value appends exactly one encounter with one
read and one write. -/
theorem run_truthiness_guard_append_once_witness :
    (generateEncounter demoParse [] = none
      ∧ run jsNumTruthy demoParse [] fs0 = fs0) ∧
    run jsNumTruthy demoParse [Char.ofNat 48] fs0 = fs0 ∧
    ((run jsNumTruthy demoParse [Char.ofNat 97, Char.ofNat 98] fs0).raw.encounters
        = fs0.raw.encounters ++ [1] ∧
      (run jsNumTruthy demoParse [Char.ofNat 97, Char.ofNat 98] fs0).readCount
        = fs0.readCount + 1 ∧
      (run jsNumTruthy demoParse [Char.ofNat 97, Char.ofNat 98] fs0).writeCount
        = fs0.writeCount + 1) :=
  ⟨(run_truthiness_guard_append_once Nat jsNumTruthy demoParse [] fs0).1 rfl,
   (run_truthiness_guard_append_once Nat jsNumTruthy demoParse
      [Char.ofNat 48] fs0).2.1 0 rfl rfl,
   (run_truthiness_guard_append_once Nat jsNumTruthy demoParse
      [Char.ofNat 97, Char.ofNat 98] fs0).2.2 1 rfl rfl⟩

end Controller
